import Mathlib

/-!
# Verification of the Checkers rules engine

Shallow embedding of the Python checkers engine (`gamestate.py`, `turn.py`,
`cell.py`, `move.py`, `piece.py`, `constants.py`, and the state-relevant part
of `board.py`) together with proofs about its move generation, turn state
machine, and state updates.

Conventions of the embedding:
* Python `None`/`EMPTY` becomes `Option.none`; a cell's occupant is an
  `Option Piece`.
* The board `status`, an 8×8 list of lists of `Cell` in the source, is
  embedded as a total function `Loc → Cell`; the source constructs the list
  so that entry `(row, col)` is exactly
  `Cell (is_dark row col) (row, col) (get_start_state row col)`, and every
  access in the algorithms is either over the 8×8 index range or guarded by
  `is_valid_cell`, so only on-board locations are ever consulted.
* Python dicts (`valid_moves`, `possible_moves`) preserve insertion order and
  are embedded as association lists `List (Loc × List Move)`; keys are
  inserted at most once, so association-list lookup agrees with dict lookup.
* Mutation becomes explicit state passing: methods that mutate `self` return
  the updated record.
-/

/-- Board coordinates `(row, col)`; the source uses Python int tuples. -/
abbrev Loc := Int × Int

/-- A movement direction `(dRow, dCol)` from `constants.py`. -/
abbrev Dir := Int × Int

/-- Piece colors. The source uses the ints `BLACK = 0`, `RED = 1`. -/
inductive Color where
  | BLACK
  | RED
deriving DecidableEq, Repr

open Color

/-- From `constants.py` line 11: `BLACK_DIRECTIONS = ((1, 1), (1, -1))`. -/
def BLACK_DIRECTIONS : List Dir := [(1, 1), (1, -1)]

/-- From `constants.py` line 12: `RED_DIRECTIONS = ((-1, 1), (-1, -1))`. -/
def RED_DIRECTIONS : List Dir := [(-1, 1), (-1, -1)]

/-- From `constants.py` line 13:
`KING_DIRECTIONS = ((1, 1), (-1, -1), (1, -1), (-1, 1))`. -/
def KING_DIRECTIONS : List Dir := [(1, 1), (-1, -1), (1, -1), (-1, 1)]

/-- From `constants.py` line 15: `SIZE = 8`. -/
def SIZE : Int := 8

/-- Turn step `NEW_TURN = 0` (`constants.py` line 18). -/
def NEW_TURN : Nat := 0

/-- Turn step `VALID_PIECE_SELECTED = 1` (`constants.py` line 19). -/
def VALID_PIECE_SELECTED : Nat := 1

/-- Turn step `CHECK_MULTIPLE_JUMPS = 2` (`constants.py` line 20). -/
def CHECK_MULTIPLE_JUMPS : Nat := 2

/-- Turn step `MOVE_COMPLETE = 3` (`constants.py` line 21). -/
def MOVE_COMPLETE : Nat := 3

/-- From `gamestate.py` line 13: `BLACK_KING_ROW = 7`. -/
def BLACK_KING_ROW : Int := 7

/-- From `gamestate.py` line 14: `RED_KING_ROW = 0`. -/
def RED_KING_ROW : Int := 0

/-- The `Piece` class of `piece.py`: a color, a list of movement directions,
and a king flag. -/
structure Piece where
  color : Color
  piece_directions : List Dir
  is_king : Bool
deriving DecidableEq, Repr

/-- `Piece.is_enemy` (`piece.py` lines 37-49): `self.color is not player`.
On the interned small ints used for colors, `is not` is inequality. -/
def Piece.is_enemy (p : Piece) (player : Color) : Bool :=
  decide (p.color ≠ player)

/-- `Piece.make_king` (`piece.py` lines 52-60): sets the direction list to
`KING_DIRECTIONS` and the king flag to true. -/
def Piece.make_king (p : Piece) : Piece :=
  { p with piece_directions := KING_DIRECTIONS, is_king := true }

/-- The `Cell` class of `cell.py`: the playable (dark) flag, the cell's
location tuple, and the occupant (`EMPTY = None` or a `Piece`). -/
structure Cell where
  playable : Bool
  location : Loc
  occupant : Option Piece
deriving DecidableEq, Repr

/-- `Cell.is_empty` (`cell.py` lines 55-64): `self.occupant == None`. -/
def Cell.is_empty (c : Cell) : Bool :=
  c.occupant.isNone

/-- `Cell.contains_piece` (`cell.py` lines 39-52): false for an empty cell,
otherwise compares the occupant's color. -/
def Cell.contains_piece (c : Cell) (color : Color) : Bool :=
  match c.occupant with
  | none => false
  | some p => decide (p.color = color)

/-- The `Move` class of `move.py`. In the source, `capturing` holds the
captured `Cell` object itself (or `None`); since that object is the cell
stored at its board coordinates, the embedding records those coordinates. -/
structure Move where
  current_loc : Loc
  new_loc : Loc
  capturing : Option Loc
deriving DecidableEq, Repr

/-- `Move.is_capture` (`move.py` lines 25-26): `self.capturing is not None`. -/
def Move.is_capture (m : Move) : Bool :=
  m.capturing.isSome

/-- The board contents: the `Game.status` grid, embedded as a total function
from locations to cells (see the module docstring). -/
abbrev Status := Loc → Cell

/-- The valid-moves dictionary: a Python dict mapping piece locations to move
lists, embedded as an insertion-ordered association list. -/
abbrev MoveDict := List (Loc × List Move)

/-- Dict lookup `d[k]` / `k in d` for the embedded move dictionary. -/
def dict_lookup (d : MoveDict) (k : Loc) : Option (List Move) :=
  (d.find? (fun kv => decide (kv.1 = k))).map (·.2)

/-- First-element capture test `ms[0].is_capture()`. Every move list stored in
a valid-moves dict is non-empty (`valid_moves_for_color` only stores non-empty
lists), so the empty case is unreachable in the source; there Python would
raise `IndexError`. -/
def firstIsCapture (ms : List Move) : Bool :=
  match ms with
  | [] => false
  | m :: _ => m.is_capture

/-- Direction list of a cell's occupant, `cell.occupant.piece_directions`.
Call sites (`get_moves_for_piece` via `all_cells_containing_color`, and the
landing cell of a just-moved piece) guarantee the cell is occupied; on `None`
the source would raise `AttributeError`. -/
def occupant_directions (occ : Option Piece) : List Dir :=
  match occ with
  | none => []
  | some p => p.piece_directions

/-- The `Turn` class of `turn.py` (attributes only; methods follow). -/
structure Turn where
  player : Color
  step : Nat
  valid_moves : MoveDict
  capture_required : Bool
  possible_targets : List Move
  final_move : Option Move
deriving DecidableEq, Repr

/-- `Turn.is_capture_required` (`turn.py` lines 50-63): scans the dict in
insertion order and returns true iff some entry's first move is a capture. -/
def is_capture_required (valid_moves : MoveDict) : Bool :=
  valid_moves.any (fun kv => firstIsCapture kv.2)

/-- The `Turn` constructor (`turn.py` lines 34-47). -/
def Turn.init (player : Color) (valid_moves : MoveDict) : Turn :=
  { player := player
    step := NEW_TURN
    valid_moves := valid_moves
    capture_required := is_capture_required valid_moves
    possible_targets := []
    final_move := none }

/-- `Turn.is_turn_complete` (`turn.py` lines 177-186). -/
def is_turn_complete (t : Turn) : Bool :=
  decide (t.step = MOVE_COMPLETE)

/-- `Turn.complete_turn` (`turn.py` lines 189-196). -/
def complete_turn (t : Turn) : Turn :=
  { t with step := MOVE_COMPLETE }

/-- `Turn.find_clicked_target` (`turn.py` lines 88-103): first Move in
`possible_targets` whose destination equals the clicked cell, else `None`. -/
def find_clicked_target (t : Turn) (cell_clicked : Loc) : Option Move :=
  t.possible_targets.find? (fun target => decide (cell_clicked = target.new_loc))

/-- `Turn.playable_cell_selected` (`turn.py` lines 66-85). -/
def playable_cell_selected (t : Turn) (cell_clicked : Loc) : Bool :=
  if t.step = NEW_TURN then
    (dict_lookup t.valid_moves cell_clicked).isSome
  else if is_turn_complete t = false then
    (find_clicked_target t cell_clicked).isSome
  else
    false

/-- `Turn.allowed_start_piece` (`turn.py` lines 134-147):
`not is_capture_required() or is_capture_required() and
valid_moves[cell_clicked][0].is_capture()`. -/
def allowed_start_piece (t : Turn) (cell_clicked : Loc) : Bool :=
  !(is_capture_required t.valid_moves) ||
    (is_capture_required t.valid_moves &&
      firstIsCapture ((dict_lookup t.valid_moves cell_clicked).getD []))

/-- `Turn.finish_initial_selection` (`turn.py` lines 150-160):
`step += 1; possible_targets = valid_moves[start_loc]`. -/
def finish_initial_selection (t : Turn) (start_loc : Loc) : Turn :=
  { t with
    step := t.step + 1
    possible_targets := (dict_lookup t.valid_moves start_loc).getD [] }

/-- `Turn.finish_piece_move` (`turn.py` lines 163-174). -/
def finish_piece_move (t : Turn) (move : Move) : Turn :=
  { t with
    step := if t.capture_required then CHECK_MULTIPLE_JUMPS else MOVE_COMPLETE
    final_move := some move }

/-- `Turn.is_valid_turn` (`turn.py` lines 106-131), returning the result
together with the updated turn (the source mutates `self` on the accepting
paths and returns the Bool). The rejection message printed before the final
`return False` is I/O only and is not modelled. -/
def is_valid_turn (t : Turn) (cell_clicked : Loc) : Bool × Turn :=
  if playable_cell_selected t cell_clicked then
    if t.step = NEW_TURN ∧ allowed_start_piece t cell_clicked = true then
      (true, finish_initial_selection t cell_clicked)
    else
      match find_clicked_target t cell_clicked with
      | some target =>
          if target.is_capture = true ∨ is_capture_required t.valid_moves = false then
            (true, finish_piece_move t target)
          else
            (false, t)
      | none => (false, t)
  else
    (false, t)

/-- `Game.is_dark` (`gamestate.py` lines 73-85):
`row % 2 == 0 and col % 2 == 0 or row % 2 == 1 and col % 2 == 1`. -/
def is_dark (row col : Int) : Bool :=
  (row % 2 == 0 && col % 2 == 0) || (row % 2 == 1 && col % 2 == 1)

/-- `Game.get_start_state` (`gamestate.py` lines 87-107), with its local
constants `BLACK_START_ROW = 0`, `BLACK_END_ROW = 2`, `RED_START_ROW = 5`. -/
def get_start_state (row col : Int) : Option Piece :=
  if is_dark row col || (decide (row > 2) && decide (row < 5)) then
    none
  else if decide (row ≥ 0) && decide (row ≤ 2) then
    some ⟨BLACK, BLACK_DIRECTIONS, false⟩
  else
    some ⟨RED, RED_DIRECTIONS, false⟩

/-- The `status` grid built by `Game.new_game` (`gamestate.py` lines 52-70):
entry `(row, col)` is `Cell(is_dark(row, col), (row, col),
get_start_state(row, col))`. -/
def new_game_status : Status :=
  fun loc => ⟨is_dark loc.1 loc.2, loc, get_start_state loc.1 loc.2⟩

/-- `Game.is_valid_cell` (`gamestate.py` lines 278-289). -/
def is_valid_cell (row col : Int) : Bool :=
  decide (row ≥ 0) && decide (row < SIZE) && decide (col ≥ 0) && decide (col < SIZE)

/-- `Game.get_next_cell_in_direction` (`gamestate.py` lines 172-183). -/
def get_next_cell_in_direction (start : Loc) (direction : Dir) : Loc :=
  (start.1 + direction.1, start.2 + direction.2)

/-- `Game.create_move` (`gamestate.py` lines 212-239). Returns `none` where
the source returns `None`. -/
def create_move (status : Status) (start next_cell : Loc) (direction : Dir)
    (piece_color : Color) : Option Move :=
  if is_valid_cell next_cell.1 next_cell.2 = false then
    none
  else
    let check_cell := status next_cell
    if check_cell.is_empty then
      some ⟨start, next_cell, none⟩
    else
      match check_cell.occupant with
      | some p =>
          if p.is_enemy piece_color then
            let end_loc := get_next_cell_in_direction next_cell direction
            if is_valid_cell end_loc.1 end_loc.2 && (status end_loc).is_empty then
              some ⟨start, end_loc, some next_cell⟩
            else
              none
          else
            none
      | none => none

/-- `Game.get_moves_for_piece` (`gamestate.py` lines 185-209): loops over the
occupant's directions, prepending capturing moves (`moves.insert(0, move)`)
and appending non-capturing ones. -/
def get_moves_for_piece (status : Status) (cell_loc : Loc) (piece_color : Color) :
    List Move :=
  let cell := status cell_loc
  (occupant_directions cell.occupant).foldl
    (fun moves direction =>
      let next_loc := get_next_cell_in_direction cell.location direction
      match create_move status cell.location next_loc direction piece_color with
      | none => moves
      | some move =>
          if move.is_capture then move :: moves else moves ++ [move])
    []

/-- The row-major traversal of `all_cells_containing_color`
(`gamestate.py` lines 166-167): `row in range(8)`, `col in range(8)`. -/
def boardLocs : List Loc :=
  (List.range 8).flatMap (fun row => (List.range 8).map (fun col => ((row : Int), (col : Int))))

/-- `Game.all_cells_containing_color` (`gamestate.py` lines 155-170). -/
def all_cells_containing_color (status : Status) (piece_color : Color) : List Loc :=
  boardLocs.filter (fun loc => (status loc).contains_piece piece_color)

/-- `Game.valid_moves_for_color` (`gamestate.py` lines 133-153): one dict
entry per piece location that has at least one move, in traversal order. -/
def valid_moves_for_color (status : Status) (piece_color : Color) : MoveDict :=
  (all_cells_containing_color status piece_color).filterMap
    (fun location =>
      let moves := get_moves_for_piece status location piece_color
      if moves.isEmpty then none else some (location, moves))

/-- `Game.check_game_over` (`gamestate.py` lines 121-131): sets the winner to
RED when black has no moves, else to BLACK when red has none, else leaves the
winner attribute as it was. -/
def check_game_over (black_possible_moves red_possible_moves : MoveDict)
    (winner : Option Color) : Option Color :=
  if black_possible_moves.isEmpty then some RED
  else if red_possible_moves.isEmpty then some BLACK
  else winner

/-- The `Game` class attributes (`gamestate.py` lines 16-50). `winner` is
`EMPTY = None` or a color. The `board` attribute is the UI object and is not
part of the engine state. -/
structure Game where
  status : Status
  black_score : Nat
  red_score : Nat
  winner : Option Color
  current_turn : Turn
  black_possible_moves : MoveDict
  red_possible_moves : MoveDict

/-- `Game.populate_valid_moves` (`gamestate.py` lines 109-118): recomputes
both move dicts, then runs `check_game_over`. -/
def populate_valid_moves (g : Game) : Game :=
  let b := valid_moves_for_color g.status BLACK
  let r := valid_moves_for_color g.status RED
  { g with
    black_possible_moves := b
    red_possible_moves := r
    winner := check_game_over b r g.winner }

/-- The state produced by `Game.__init__` (`gamestate.py` lines 40-50 and
52-70): the start grid, both move dicts, the first Turn for BLACK built from
black's moves, zero scores, and no winner. At the start position both colors
have moves, so `check_game_over` assigns nothing and `winner` is `EMPTY`. -/
def initial_game : Game :=
  let status := new_game_status
  let b := valid_moves_for_color status BLACK
  let r := valid_moves_for_color status RED
  { status := status
    black_score := 0
    red_score := 0
    winner := none
    current_turn := Turn.init BLACK b
    black_possible_moves := b
    red_possible_moves := r }

/-- `Game.get_additional_jump` (`gamestate.py` lines 242-264): recomputes the
color's moves, take the leading capturing moves of the entry at the start
cell's location (the `for`/`break` loop), and completes the current turn when
none are found. Returns the capture list with the updated turn. -/
def get_additional_jump (status : Status) (start_cell : Cell) (piece_color : Color)
    (t : Turn) : List Move × Turn :=
  let moves := valid_moves_for_color status piece_color
  let possible_capture :=
    match dict_lookup moves start_cell.location with
    | none => []
    | some ms => ms.takeWhile (fun m => m.is_capture)
  (possible_capture, if possible_capture.length = 0 then complete_turn t else t)

/-- `Game.extend_turn` (`gamestate.py` lines 266-276). -/
def extend_turn (g : Game) (options : List Move) : Game :=
  { g with
    current_turn :=
      { g.current_turn with final_move := none, possible_targets := options } }

/-- `Game.update_state` (`gamestate.py` lines 291-312). Executed in source
order: the occupant moves from the source cell to the destination cell (read
before the source is cleared), is promoted when the destination row is the
mover's king row, the source cell is cleared, and on a capture the current
player's score is incremented and the captured cell cleared. -/
def update_state (g : Game) (move : Move) : Game :=
  let old_cell := g.status move.current_loc
  let moved := old_cell.occupant
  let promoted : Option Piece :=
    match moved with
    | none => none
    | some p =>
        if (move.new_loc.1 = BLACK_KING_ROW ∧ p.color = BLACK) ∨
           (move.new_loc.1 = RED_KING_ROW ∧ p.color = RED) then
          some p.make_king
        else
          some p
  let s1 : Status := fun l =>
    if l = move.new_loc then { g.status move.new_loc with occupant := promoted }
    else g.status l
  let s2 : Status := fun l =>
    if l = move.current_loc then { s1 move.current_loc with occupant := none }
    else s1 l
  match move.capturing with
  | none => { g with status := s2 }
  | some captured_loc =>
      let s3 : Status := fun l =>
        if l = captured_loc then { s2 captured_loc with occupant := none }
        else s2 l
      if g.current_turn.player = BLACK then
        { g with status := s3, black_score := g.black_score + 1 }
      else
        { g with status := s3, red_score := g.red_score + 1 }

/-- The state-relevant part of `Board.make_move` (`board.py` lines 210-239),
the controller step run after `is_valid_turn` accepted a click: when a piece
was just selected only highlighting happens; otherwise the committed
`final_move` is applied, and if it captured, the landing cell is checked for
further jumps (`get_additional_jump`, which completes the turn when there are
none) and the turn is extended when more jumps exist. Drawing calls are I/O
only and are not modelled. -/
def make_move (g : Game) : Game :=
  if g.current_turn.step = VALID_PIECE_SELECTED then
    g
  else
    match g.current_turn.final_move with
    | none => g
    | some move =>
        let g1 := update_state g move
        if move.is_capture then
          let landing := g1.status move.new_loc
          let res := get_additional_jump g1.status landing g1.current_turn.player
            g1.current_turn
          let g2 := { g1 with current_turn := res.2 }
          if res.1.length > 0 then extend_turn g2 res.1 else g2
        else
          g1

/-- A board whose cells are all empty, used to exercise `check_game_over`
when neither color has a move. -/
def empty_status : Status :=
  fun loc => ⟨is_dark loc.1 loc.2, loc, none⟩

/-- A game over the all-empty board, before `populate_valid_moves` runs. -/
def empty_board_game : Game :=
  { status := empty_status
    black_score := 0
    red_score := 0
    winner := none
    current_turn := Turn.init BLACK []
    black_possible_moves := []
    red_possible_moves := [] }

/-- C4: the claim states that in every board state reachable from `new_game`,
including the initial position, every cell with `playable = false` has no
occupant. The initial position itself violates it: cell `(0, 1)` has
`playable = is_dark 0 1 = false`, yet `get_start_state` places pieces exactly
on the cells where `is_dark` is false, so `(0, 1)` holds a BLACK piece. This
contradicts `cell.py`'s own documentation of `playable` ("dark cells can be
used, white cannot"); the spec's invariant is the evident intent and the
parity is inverted between `is_dark` and `get_start_state`. -/
theorem c4_unplayable_cell_occupied_at_start :
    (new_game_status ((0 : Int), (1 : Int))).playable = false ∧
      (new_game_status ((0 : Int), (1 : Int))).occupant.isSome = true := by
  decide

/-- C5 counterexample: the claim says the occupied cells of rows 0-2 of the
start position hold RED pieces; in fact cell `(0, 1)` is occupied and holds a
BLACK piece, not a RED one. -/
theorem c5_row0_piece_is_black_not_red :
    ∃ p, (new_game_status ((0 : Int), (1 : Int))).occupant = some p ∧ p.color ≠ RED := by
  refine ⟨⟨BLACK, BLACK_DIRECTIONS, false⟩, ?_, ?_⟩ <;> decide

/-- C5 (amended): immediately after construction, the occupied cells of rows
0-2 hold BLACK pieces, the occupied cells of rows 5-7 hold RED pieces, rows
3-4 are entirely empty, rows 0 and 5 are not empty, and the first Turn is
created for BLACK with BLACK's legal moves. -/
theorem c5_start_position :
    ((boardLocs.all (fun loc =>
        (!(decide (loc.1 ≤ 2)) ||
          ((new_game_status loc).occupant.all (fun p => decide (p.color = BLACK)))) &&
        (!(decide (5 ≤ loc.1)) ||
          ((new_game_status loc).occupant.all (fun p => decide (p.color = RED)))) &&
        (!(decide (3 ≤ loc.1) && decide (loc.1 ≤ 4)) ||
          (new_game_status loc).occupant.isNone))) = true) ∧
      (new_game_status ((0 : Int), (1 : Int))).occupant.isSome = true ∧
      (new_game_status ((5 : Int), (0 : Int))).occupant.isSome = true ∧
      initial_game.current_turn.player = BLACK ∧
      initial_game.current_turn.valid_moves =
        valid_moves_for_color new_game_status BLACK := by
  refine ⟨by decide, by decide, by decide, rfl, rfl⟩

/-- C6 counterexample: on the all-empty board both move dicts are empty after
`populate_valid_moves`; RED's dict is empty, yet the winner is RED, not BLACK
as the claim requires (`check_game_over` tests black first and its `elif`
never runs). -/
theorem c6_both_empty_winner_is_red :
    (populate_valid_moves empty_board_game).red_possible_moves = [] ∧
      (populate_valid_moves empty_board_game).winner = some RED ∧
      (populate_valid_moves empty_board_game).winner ≠ some BLACK := by
  refine ⟨by decide, by decide, by decide⟩

/-- C6 (amended): after `populate_valid_moves` runs on any game state, if
BLACK's move dict is empty the winner is RED; and if RED's dict is empty
while BLACK's is not, the winner is BLACK. (When both are simultaneously
empty, the winner is RED, not BLACK.) -/
theorem c6_win_detection (g : Game) :
    ((populate_valid_moves g).black_possible_moves = [] →
        (populate_valid_moves g).winner = some RED) ∧
      ((populate_valid_moves g).black_possible_moves ≠ [] →
        (populate_valid_moves g).red_possible_moves = [] →
        (populate_valid_moves g).winner = some BLACK) := by
  unfold populate_valid_moves check_game_over
  constructor
  · intro hb
    simp only at hb ⊢
    simp [hb]
  · intro hb hr
    simp only at hb hr ⊢
    simp [hb, hr]

/-- C6 witness: applying the win-detection theorem to the all-empty board
shows its winner is RED. -/
theorem c6_win_detection_witness :
    (populate_valid_moves empty_board_game).winner = some RED :=
  (c6_win_detection empty_board_game).1 (by decide)

/-- Every run of `is_valid_turn` either accepts, or returns `False` with the
turn unchanged: all three `return False` paths of the source leave `self`
untouched. -/
theorem is_valid_turn_accepts_or_rejects (t : Turn) (cell_clicked : Loc) :
    (is_valid_turn t cell_clicked).1 = true ∨ is_valid_turn t cell_clicked = (false, t) := by
  unfold is_valid_turn
  split
  · split
    · left
      rfl
    · split
      · split
        · left
          rfl
        · right
          rfl
      · right
        rfl
  · right
    rfl

/-- C9: whenever `is_valid_turn` rejects a click (returns `False`), the Turn
is left exactly unchanged — `step`, `valid_moves`, `capture_required`,
`possible_targets`, `final_move` and `player` all keep their values, so the
rejection is retryable. (`is_valid_turn` is a `Turn` method with no reference
to the `Game`, so the board state is untouched by construction, and the
embedded function is total: the source raises no exception on any reject
path, the only non-Bool effect there being a printed log message.) -/
theorem c9_rejection_leaves_turn_unchanged (t : Turn) (cell_clicked : Loc)
    (h : (is_valid_turn t cell_clicked).1 = false) :
    (is_valid_turn t cell_clicked).2 = t := by
  rcases is_valid_turn_accepts_or_rejects t cell_clicked with heq | heq
  · rw [heq] at h
    exact absurd h (by simp)
  · rw [heq]

/-- C9 witness: a brand-new BLACK turn with no legal moves rejects the click
`(0, 0)` and is returned unchanged. -/
theorem c9_rejection_leaves_turn_unchanged_witness :
    (is_valid_turn (Turn.init BLACK []) ((0 : Int), (0 : Int))).2 = Turn.init BLACK [] :=
  c9_rejection_leaves_turn_unchanged (Turn.init BLACK []) ((0 : Int), (0 : Int)) (by decide)

/-- C1: for a Turn in step NEW_TURN whose `capture_required` flag is true
(with the NEW_TURN invariants that `possible_targets` is empty and the flag
agrees with `is_capture_required` of `valid_moves`, both guaranteed by the
constructor, the only producer of NEW_TURN turns), `is_valid_turn` accepts a
clicked location only if it is a key of `valid_moves` whose move list's first
entry is a capture, and rejects every key whose first entry is not a
capture. -/
theorem c1_forced_capture_validation (t : Turn) (loc : Loc)
    (hstep : t.step = NEW_TURN)
    (htargets : t.possible_targets = [])
    (hflag : t.capture_required = true)
    (hsync : is_capture_required t.valid_moves = t.capture_required) :
    ((is_valid_turn t loc).1 = true →
        ∃ ms, dict_lookup t.valid_moves loc = some ms ∧ firstIsCapture ms = true) ∧
      (∀ ms, dict_lookup t.valid_moves loc = some ms → firstIsCapture ms = false →
        (is_valid_turn t loc).1 = false) := by
  have hicr : is_capture_required t.valid_moves = true := hsync.trans hflag
  have hfind : find_clicked_target t loc = none := by
    simp [find_clicked_target, htargets]
  cases hlk : dict_lookup t.valid_moves loc with
  | none =>
      have hp : playable_cell_selected t loc = false := by
        simp [playable_cell_selected, hstep, hlk]
      have hres : is_valid_turn t loc = (false, t) := by
        unfold is_valid_turn
        simp [hp]
      constructor
      · rw [hres]
        intro h
        exact absurd h (by simp)
      · intro ms hms
        exact absurd hms (by simp)
  | some ms =>
      have hp : playable_cell_selected t loc = true := by
        simp [playable_cell_selected, hstep, hlk]
      have hall : allowed_start_piece t loc = firstIsCapture ms := by
        simp [allowed_start_piece, hicr, hlk]
      cases hfc : firstIsCapture ms with
      | true =>
          constructor
          · intro _
            exact ⟨ms, rfl, hfc⟩
          · intro ms' hms' hfc'
            have hms'' : ms = ms' := by
              injection hms'
            rw [← hms''] at hfc'
            rw [hfc] at hfc'
            exact absurd hfc' (by simp)
      | false =>
          have hres : is_valid_turn t loc = (false, t) := by
            unfold is_valid_turn
            simp [hp, hall, hfc, hfind]
          constructor
          · rw [hres]
            intro h
            exact absurd h (by simp)
          · intro ms' hms' hfc'
            rw [hres]

/-- A small valid-moves dict for exercising the forced-capture check: the
piece at `(0, 0)` can capture, the piece at `(4, 4)` cannot. -/
def forced_capture_moves : MoveDict :=
  [(((0 : Int), (0 : Int)), [⟨((0 : Int), (0 : Int)), ((2 : Int), (2 : Int)), some ((1 : Int), (1 : Int))⟩]),
   (((4 : Int), (4 : Int)), [⟨((4 : Int), (4 : Int)), ((5 : Int), (5 : Int)), none⟩])]

/-- C1 witness: with a capture available elsewhere, clicking the piece at
`(4, 4)`, whose move list starts with a non-capture, is rejected. -/
theorem c1_forced_capture_validation_witness :
    (is_valid_turn (Turn.init BLACK forced_capture_moves) ((4 : Int), (4 : Int))).1 = false :=
  (c1_forced_capture_validation (Turn.init BLACK forced_capture_moves)
      ((4 : Int), (4 : Int)) rfl rfl (by decide) rfl).2
    [⟨((4 : Int), (4 : Int)), ((5 : Int), (5 : Int)), none⟩] (by decide) (by decide)

/-- Capture-first ordering of a move list: whenever an earlier entry is
followed by a capturing entry, the earlier entry is itself a capture —
equivalently, every capturing Move precedes every non-capturing Move. -/
def CapturesFirst (l : List Move) : Prop :=
  l.Pairwise (fun a b => b.is_capture = true → a.is_capture = true)

/-- Prepending a capturing move preserves capture-first ordering. -/
theorem capturesFirst_cons (m : Move) (acc : List Move)
    (hm : m.is_capture = true) (h : CapturesFirst acc) :
    CapturesFirst (m :: acc) :=
  List.Pairwise.cons (fun _ _ _ => hm) h

/-- Appending a non-capturing move preserves capture-first ordering. -/
theorem capturesFirst_append (m : Move) (acc : List Move)
    (hm : m.is_capture = false) (h : CapturesFirst acc) :
    CapturesFirst (acc ++ [m]) := by
  rw [CapturesFirst, List.pairwise_append]
  refine ⟨h, List.pairwise_singleton _ _, ?_⟩
  intro a _ b hb hcap
  rw [List.mem_singleton] at hb
  rw [hb, hm] at hcap
  exact absurd hcap (by simp)

/-- A fold whose step either keeps the accumulator, prepends a capture, or
appends a non-capture, preserves capture-first ordering. -/
theorem capturesFirst_foldl (g : List Move → Dir → List Move)
    (hg : ∀ acc d, g acc d = acc ∨
      ∃ m, g acc d = if m.is_capture then m :: acc else acc ++ [m]) :
    ∀ (dirs : List Dir) (acc : List Move), CapturesFirst acc →
      CapturesFirst (dirs.foldl g acc) := by
  intro dirs
  induction dirs with
  | nil => intro acc h; exact h
  | cons d ds ih =>
      intro acc h
      rw [List.foldl_cons]
      apply ih
      rcases hg acc d with he | ⟨m, he⟩
      · rw [he]; exact h
      · rw [he]
        cases hm : m.is_capture with
        | true => rw [if_pos rfl]; exact capturesFirst_cons m acc hm h
        | false => rw [if_neg (by simp)]; exact capturesFirst_append m acc hm h

/-- C2: for every board state and every occupied cell, the move list produced
by `get_moves_for_piece` has every capturing Move before every non-capturing
Move: if position `j` holds a capture, so does every earlier position `i`. -/
theorem c2_captures_precede_noncaptures (status : Status) (cell_loc : Loc)
    (piece_color : Color)
    (_hocc : ((status cell_loc).occupant).isSome = true)
    (i j : Fin (get_moves_for_piece status cell_loc piece_color).length)
    (hij : i < j)
    (hj : ((get_moves_for_piece status cell_loc piece_color).get j).is_capture = true) :
    ((get_moves_for_piece status cell_loc piece_color).get i).is_capture = true := by
  have hpair : CapturesFirst (get_moves_for_piece status cell_loc piece_color) := by
    unfold get_moves_for_piece
    refine capturesFirst_foldl _ ?_ _ [] List.Pairwise.nil
    intro acc d
    cases hc : create_move status (status cell_loc).location
        (get_next_cell_in_direction (status cell_loc).location d) d piece_color with
    | none => left; simp [hc]
    | some mv => right; exact ⟨mv, by simp [hc]⟩
  exact List.pairwise_iff_get.mp hpair i j hij hj

/-- A board with a BLACK piece at `(2, 2)` facing RED pieces at `(3, 3)` and
`(3, 1)` with both landing squares empty: the piece has two capturing
moves. -/
def double_capture_status : Status :=
  fun loc =>
    ⟨is_dark loc.1 loc.2, loc,
      if loc = ((2 : Int), (2 : Int)) then some ⟨BLACK, BLACK_DIRECTIONS, false⟩
      else if loc = ((3 : Int), (3 : Int)) then some ⟨RED, RED_DIRECTIONS, false⟩
      else if loc = ((3 : Int), (1 : Int)) then some ⟨RED, RED_DIRECTIONS, false⟩
      else none⟩

/-- C2 witness: on the double-capture board, position 1 of the move list of
the piece at `(2, 2)` is a capture, so position 0 is one as well. -/
theorem c2_captures_precede_noncaptures_witness :
    ((get_moves_for_piece double_capture_status ((2 : Int), (2 : Int)) BLACK).get
        ⟨0, by decide⟩).is_capture = true :=
  c2_captures_precede_noncaptures double_capture_status ((2 : Int), (2 : Int)) BLACK
    (by decide) ⟨0, by decide⟩ ⟨1, by decide⟩ (by decide) (by decide)

/-- Specification of a successful `create_move`: the produced Move starts at
`start`, its destination is an on-board empty cell, and when it captures, the
captured cell holds an enemy of the moving color. -/
theorem create_move_some_spec (status : Status) (start next_cell : Loc)
    (direction : Dir) (piece_color : Color) (m : Move)
    (h : create_move status start next_cell direction piece_color = some m) :
    m.current_loc = start ∧
      is_valid_cell m.new_loc.1 m.new_loc.2 = true ∧
      (status m.new_loc).is_empty = true ∧
      ∀ cap, m.capturing = some cap →
        ∃ p, (status cap).occupant = some p ∧ p.color ≠ piece_color := by
  simp only [create_move] at h
  split at h
  · exact absurd h (by simp)
  · next hvalid =>
      have hv : is_valid_cell next_cell.1 next_cell.2 = true := by
        cases hb : is_valid_cell next_cell.1 next_cell.2
        · exact absurd hb hvalid
        · rfl
      split at h
      · next hempty =>
          injection h with h
          subst h
          refine ⟨rfl, hv, hempty, ?_⟩
          intro cap hcap
          exact absurd hcap (by simp)
      · next hnotempty =>
          split at h
          · next p hocc =>
              split at h
              · next henemy =>
                  split at h
                  · next hland =>
                      injection h with h
                      subst h
                      rw [Bool.and_eq_true] at hland
                      rcases hland with ⟨hl1, hl2⟩
                      refine ⟨rfl, hl1, hl2, ?_⟩
                      intro cap hcap
                      injection hcap with hcap
                      subst hcap
                      refine ⟨p, hocc, ?_⟩
                      exact of_decide_eq_true henemy
                  · exact absurd h (by simp)
              · exact absurd h (by simp)
          · exact absurd h (by simp)

/-- Membership in a fold whose step function either keeps the accumulator or
adds an element satisfying `P` for the current item. -/
theorem mem_foldl_step {α β : Type} (g : List α → β → List α) (P : β → α → Prop)
    (hg : ∀ acc d m, m ∈ g acc d → m ∈ acc ∨ P d m) :
    ∀ (ds : List β) (acc : List α) (m : α),
      m ∈ ds.foldl g acc → m ∈ acc ∨ ∃ d ∈ ds, P d m := by
  intro ds
  induction ds with
  | nil => intro acc m h; exact Or.inl h
  | cons d ds ih =>
      intro acc m h
      rw [List.foldl_cons] at h
      rcases ih (g acc d) m h with hmem | ⟨d', hd', hP⟩
      · rcases hg acc d m hmem with h1 | h2
        · exact Or.inl h1
        · exact Or.inr ⟨d, List.mem_cons_self d ds, h2⟩
      · exact Or.inr ⟨d', List.mem_cons_of_mem d hd', hP⟩

/-- Every Move in `get_moves_for_piece` was produced by `create_move` from
the cell's location in one of the occupant's directions. -/
theorem mem_get_moves_for_piece (status : Status) (cell_loc : Loc)
    (piece_color : Color) (m : Move)
    (h : m ∈ get_moves_for_piece status cell_loc piece_color) :
    ∃ d, create_move status (status cell_loc).location
        (get_next_cell_in_direction (status cell_loc).location d) d piece_color =
          some m := by
  unfold get_moves_for_piece at h
  have hstep : ∀ (acc : List Move) (d : Dir) (mv : Move),
      mv ∈ (fun moves direction =>
        match create_move status (status cell_loc).location
            (get_next_cell_in_direction (status cell_loc).location direction)
            direction piece_color with
        | none => moves
        | some move => if move.is_capture then move :: moves else moves ++ [move])
          acc d →
      mv ∈ acc ∨ create_move status (status cell_loc).location
        (get_next_cell_in_direction (status cell_loc).location d) d piece_color =
          some mv := by
    intro acc d mv hmv
    simp only at hmv
    cases hc : create_move status (status cell_loc).location
        (get_next_cell_in_direction (status cell_loc).location d) d piece_color with
    | none =>
        simp only [hc] at hmv
        exact Or.inl hmv
    | some mv' =>
        simp only [hc] at hmv
        by_cases hcap : mv'.is_capture = true
        · rw [if_pos hcap] at hmv
          rcases List.mem_cons.mp hmv with he | ha
          · rw [he]; exact Or.inr rfl
          · exact Or.inl ha
        · rw [if_neg hcap] at hmv
          rcases List.mem_append.mp hmv with ha | he
          · exact Or.inl ha
          · rw [List.mem_singleton] at he
            rw [he]
            exact Or.inr rfl
  rcases mem_foldl_step _
      (fun d mv => create_move status (status cell_loc).location
        (get_next_cell_in_direction (status cell_loc).location d) d piece_color =
          some mv)
      hstep (occupant_directions (status cell_loc).occupant) [] m h with
    habs | ⟨d, _, hd⟩
  · exact absurd habs (List.not_mem_nil m)
  · exact ⟨d, hd⟩

/-- Every entry of the dict built by `valid_moves_for_color` maps a traversed
location to exactly the list computed by `get_moves_for_piece` there. -/
theorem valid_moves_for_color_entry (status : Status) (piece_color : Color)
    (loc : Loc) (ms : List Move)
    (h : (loc, ms) ∈ valid_moves_for_color status piece_color) :
    ms = get_moves_for_piece status loc piece_color := by
  unfold valid_moves_for_color at h
  rcases List.mem_filterMap.mp h with ⟨a, _, hfa⟩
  revert hfa
  simp only
  split
  · intro hfa
    exact absurd hfa (by simp)
  · intro hfa
    injection hfa with hpair
    injection hpair with he1 he2
    rw [← he2, he1]

/-- C3: every Move stored by `valid_moves_for_color` has an on-board, empty
destination cell, and every capturing Move's captured cell holds an enemy
piece of the moving color. -/
theorem c3_moves_land_on_board_empty (status : Status) (piece_color : Color)
    (loc : Loc) (ms : List Move)
    (h : (loc, ms) ∈ valid_moves_for_color status piece_color)
    (m : Move) (hm : m ∈ ms) :
    is_valid_cell m.new_loc.1 m.new_loc.2 = true ∧
      (status m.new_loc).is_empty = true ∧
      ∀ cap, m.capturing = some cap →
        ∃ p, (status cap).occupant = some p ∧ p.color ≠ piece_color := by
  rw [valid_moves_for_color_entry status piece_color loc ms h] at hm
  rcases mem_get_moves_for_piece status loc piece_color m hm with ⟨d, hd⟩
  rcases create_move_some_spec status (status loc).location
      (get_next_cell_in_direction (status loc).location d) d piece_color m hd with
    ⟨_, h1, h2, h3⟩
  exact ⟨h1, h2, h3⟩

/-- C3 witness: the capture of the RED piece at `(3, 3)` by the BLACK piece at
`(2, 2)` on the double-capture board lands on the on-board empty cell
`(4, 4)`. -/
theorem c3_moves_land_on_board_empty_witness :
    is_valid_cell (4 : Int) (4 : Int) = true ∧
      (double_capture_status ((4 : Int), (4 : Int))).is_empty = true :=
  ⟨(c3_moves_land_on_board_empty double_capture_status BLACK ((2 : Int), (2 : Int))
      [⟨((2 : Int), (2 : Int)), ((4 : Int), (0 : Int)), some ((3 : Int), (1 : Int))⟩,
       ⟨((2 : Int), (2 : Int)), ((4 : Int), (4 : Int)), some ((3 : Int), (3 : Int))⟩]
      (by decide)
      ⟨((2 : Int), (2 : Int)), ((4 : Int), (4 : Int)), some ((3 : Int), (3 : Int))⟩
      (by decide)).1,
   (c3_moves_land_on_board_empty double_capture_status BLACK ((2 : Int), (2 : Int))
      [⟨((2 : Int), (2 : Int)), ((4 : Int), (0 : Int)), some ((3 : Int), (1 : Int))⟩,
       ⟨((2 : Int), (2 : Int)), ((4 : Int), (4 : Int)), some ((3 : Int), (3 : Int))⟩]
      (by decide)
      ⟨((2 : Int), (2 : Int)), ((4 : Int), (4 : Int)), some ((3 : Int), (3 : Int))⟩
      (by decide)).2.1⟩

/-- Every Move in a piece's generated move list starts at the `location`
field of the cell at the queried position (the source builds each Move from
`cell.location`). -/
theorem get_moves_current_loc (status : Status) (cell_loc : Loc)
    (piece_color : Color) (m : Move)
    (h : m ∈ get_moves_for_piece status cell_loc piece_color) :
    m.current_loc = (status cell_loc).location := by
  rcases mem_get_moves_for_piece status cell_loc piece_color m h with ⟨d, hd⟩
  exact (create_move_some_spec status (status cell_loc).location
    (get_next_cell_in_direction (status cell_loc).location d) d piece_color m hd).1

/-- A successful dict lookup comes from an entry of the association list. -/
theorem dict_lookup_mem (d : MoveDict) (k : Loc) (ms : List Move)
    (h : dict_lookup d k = some ms) : (k, ms) ∈ d := by
  unfold dict_lookup at h
  rcases Option.map_eq_some'.mp h with ⟨kv, hfind, hkv⟩
  have hp := List.find?_some hfind
  simp only [decide_eq_true_eq] at hp
  have hmem := List.mem_of_find?_eq_some hfind
  rw [← hp, ← hkv]
  exact hmem

/-- C7: for a cell holding a piece of the given color (with its `location`
field consistent with its board position, as in every constructed board),
every Move returned by `get_additional_jump` is a capturing Move whose
`current_loc` is exactly that cell's location: the continuation query after
a capture returns only capturing moves sourced at the landing cell. -/
theorem c7_additional_jumps_are_captures_from_landing (status : Status)
    (piece_color : Color) (start_cell : Cell) (t : Turn)
    (_hocc : start_cell.contains_piece piece_color = true)
    (hloc : (status start_cell.location).location = start_cell.location)
    (m : Move)
    (hm : m ∈ (get_additional_jump status start_cell piece_color t).1) :
    m.is_capture = true ∧ m.current_loc = start_cell.location := by
  unfold get_additional_jump at hm
  simp only at hm
  revert hm
  cases hlk : dict_lookup (valid_moves_for_color status piece_color)
      start_cell.location with
  | none =>
      intro hm
      exact absurd hm (List.not_mem_nil m)
  | some ms =>
      intro hm
      have hcap : m.is_capture = true := List.mem_takeWhile_imp hm
      have hms : m ∈ ms := (List.takeWhile_sublist _).subset hm
      have hkv : (start_cell.location, ms) ∈ valid_moves_for_color status piece_color :=
        dict_lookup_mem _ _ _ hlk
      have hentry := valid_moves_for_color_entry status piece_color
        start_cell.location ms hkv
      rw [hentry] at hms
      have hcur := get_moves_current_loc status start_cell.location piece_color m hms
      rw [hloc] at hcur
      exact ⟨hcap, hcur⟩

/-- C7 witness: on the double-capture board, with the BLACK piece at `(2, 2)`
as the landing cell, the continuation query returns the capture towards
`(4, 0)`, which is a capture sourced at `(2, 2)`. -/
theorem c7_additional_jumps_witness :
    Move.is_capture ⟨((2 : Int), (2 : Int)), ((4 : Int), (0 : Int)), some ((3 : Int), (1 : Int))⟩ = true ∧
      Move.current_loc ⟨((2 : Int), (2 : Int)), ((4 : Int), (0 : Int)), some ((3 : Int), (1 : Int))⟩ =
        ((2 : Int), (2 : Int)) :=
  c7_additional_jumps_are_captures_from_landing double_capture_status BLACK
    (double_capture_status ((2 : Int), (2 : Int))) (Turn.init BLACK [])
    (by decide) (by decide)
    ⟨((2 : Int), (2 : Int)), ((4 : Int), (0 : Int)), some ((3 : Int), (1 : Int))⟩
    (by decide)

/-- C10: `update_state` changes no cell other than the move's source cell,
destination cell, and captured cell; the winner attribute is untouched; the
non-moving player's score is unchanged; and the moving player's score (the
current turn's player, whose move is being applied) grows by exactly 1 when
the move is a capture and by 0 otherwise. -/
theorem c10_update_state_frame (g : Game) (m : Move) (loc : Loc)
    (h1 : loc ≠ m.current_loc) (h2 : loc ≠ m.new_loc)
    (h3 : ∀ cap, m.capturing = some cap → loc ≠ cap) :
    ((update_state g m).status loc).occupant = (g.status loc).occupant ∧
      (update_state g m).winner = g.winner ∧
      (if g.current_turn.player = BLACK then
        (update_state g m).red_score = g.red_score ∧
          (update_state g m).black_score =
            g.black_score + (if m.is_capture then 1 else 0)
      else
        (update_state g m).black_score = g.black_score ∧
          (update_state g m).red_score =
            g.red_score + (if m.is_capture then 1 else 0)) := by
  unfold update_state
  cases hcap : m.capturing with
  | none =>
      have hic : m.is_capture = false := by simp [Move.is_capture, hcap]
      refine ⟨?_, ?_, ?_⟩
      · simp [h1, h2]
      · simp
      · by_cases hp : g.current_turn.player = BLACK <;> simp [hp, hic]
  | some cap =>
      have hic : m.is_capture = true := by simp [Move.is_capture, hcap]
      have hneq := h3 cap hcap
      by_cases hp : g.current_turn.player = BLACK <;>
        refine ⟨?_, ?_, ?_⟩ <;>
          simp [hp, hic, h1, h2, hneq]

/-- A game over the double-capture board with a fresh BLACK turn (in this
position a capture is required, since both of BLACK's moves are captures). -/
def double_capture_game : Game :=
  { status := double_capture_status
    black_score := 0
    red_score := 0
    winner := none
    current_turn := Turn.init BLACK (valid_moves_for_color double_capture_status BLACK)
    black_possible_moves := valid_moves_for_color double_capture_status BLACK
    red_possible_moves := valid_moves_for_color double_capture_status RED }

/-- The capture of the RED piece at `(3, 3)` by the BLACK piece at `(2, 2)`,
landing at `(4, 4)`. -/
def capture_move_33 : Move :=
  ⟨((2 : Int), (2 : Int)), ((4 : Int), (4 : Int)), some ((3 : Int), (3 : Int))⟩

/-- C10 witness: applying the capture of `(3, 3)` on the double-capture game
leaves the bystander cell `(0, 1)` and the winner unchanged, keeps RED's
score, and raises BLACK's score by exactly 1. -/
theorem c10_update_state_frame_witness :
    ((update_state double_capture_game capture_move_33).status ((0 : Int), (1 : Int))).occupant =
        (double_capture_game.status ((0 : Int), (1 : Int))).occupant ∧
      (update_state double_capture_game capture_move_33).winner = double_capture_game.winner ∧
      (if double_capture_game.current_turn.player = BLACK then
        (update_state double_capture_game capture_move_33).red_score =
            double_capture_game.red_score ∧
          (update_state double_capture_game capture_move_33).black_score =
            double_capture_game.black_score + (if capture_move_33.is_capture then 1 else 0)
      else
        (update_state double_capture_game capture_move_33).black_score =
            double_capture_game.black_score ∧
          (update_state double_capture_game capture_move_33).red_score =
            double_capture_game.red_score + (if capture_move_33.is_capture then 1 else 0)) :=
  c10_update_state_frame double_capture_game capture_move_33 ((0 : Int), (1 : Int))
    (by decide) (by decide)
    (by intro cap hc; injection hc with hc; rw [← hc]; decide)

/-- `update_state` never touches the current turn. -/
theorem update_state_current_turn (g : Game) (m : Move) :
    (update_state g m).current_turn = g.current_turn := by
  unfold update_state
  cases m.capturing with
  | none => rfl
  | some cap =>
      by_cases hp : g.current_turn.player = BLACK
      · simp [hp]
      · simp [hp]

/-- The capture list computed by `get_additional_jump` does not depend on the
turn it is asked to complete. -/
theorem gaj_fst_turn_irrel (status : Status) (c : Cell) (pc : Color) (t t' : Turn) :
    (get_additional_jump status c pc t).1 = (get_additional_jump status c pc t').1 := rfl

/-- The turn returned by `get_additional_jump` is the input turn, completed
exactly when the capture list is empty. -/
theorem gaj_snd_spec (status : Status) (c : Cell) (pc : Color) (t : Turn) :
    (get_additional_jump status c pc t).2 =
      if (get_additional_jump status c pc t).1.length = 0 then complete_turn t else t := rfl

/-- `extend_turn` does not change the turn's step. -/
theorem extend_turn_step (g : Game) (opts : List Move) :
    (extend_turn g opts).current_turn.step = g.current_turn.step := rfl

/-- `finish_piece_move` does not change the turn's player. -/
theorem finish_piece_move_player (t : Turn) (m : Move) :
    (finish_piece_move t m).player = t.player := rfl

/-- Unfolding of `make_move` on the committed-move path (step is past piece
selection and a final move is recorded). -/
theorem make_move_spec (g : Game) (m : Move)
    (hstep : ¬(g.current_turn.step = VALID_PIECE_SELECTED))
    (hfm : g.current_turn.final_move = some m) :
    make_move g =
      if m.is_capture = true then
        (let g1 := update_state g m
         let res := get_additional_jump g1.status (g1.status m.new_loc)
           g1.current_turn.player g1.current_turn
         let g2 := { g1 with current_turn := res.2 }
         if res.1.length > 0 then extend_turn g2 res.1 else g2)
      else update_state g m := by
  unfold make_move
  rw [if_neg hstep, hfm]

/-- The step reached after the controller applies a committed move: when the
move captured, the step is completed iff the continuation check finds no
further capture; otherwise the step set by `finish_piece_move` remains. -/
theorem make_move_step_char (g : Game) (t : Turn) (m : Move)
    (hturn : g.current_turn = finish_piece_move t m) :
    (make_move g).current_turn.step =
      if m.is_capture = true then
        (if (get_additional_jump (update_state g m).status
              ((update_state g m).status m.new_loc) t.player t).1.length = 0 then
          MOVE_COMPLETE
        else (finish_piece_move t m).step)
      else (finish_piece_move t m).step := by
  have hstep : ¬(g.current_turn.step = VALID_PIECE_SELECTED) := by
    rw [hturn]
    show ¬((if t.capture_required then CHECK_MULTIPLE_JUMPS else MOVE_COMPLETE) =
      VALID_PIECE_SELECTED)
    cases t.capture_required <;> decide
  have hfm : g.current_turn.final_move = some m := by
    rw [hturn]
    rfl
  have huct : (update_state g m).current_turn = finish_piece_move t m := by
    rw [update_state_current_turn, hturn]
  rw [make_move_spec g m hstep hfm]
  by_cases him : m.is_capture = true
  · rw [if_pos him, if_pos him]
    simp only [huct, finish_piece_move_player]
    rw [gaj_fst_turn_irrel (update_state g m).status ((update_state g m).status m.new_loc)
      t.player (finish_piece_move t m) t]
    by_cases hlen : (get_additional_jump (update_state g m).status
        ((update_state g m).status m.new_loc) t.player t).1.length = 0
    · rw [if_neg (by simp [hlen]), if_pos hlen]
      show ((get_additional_jump (update_state g m).status
        ((update_state g m).status m.new_loc) t.player (finish_piece_move t m)).2).step =
          MOVE_COMPLETE
      rw [gaj_snd_spec, gaj_fst_turn_irrel (update_state g m).status
        ((update_state g m).status m.new_loc) t.player (finish_piece_move t m) t,
        if_pos hlen]
      rfl
    · rw [if_pos (Nat.pos_of_ne_zero hlen), if_neg hlen]
      rw [extend_turn_step]
      show ((get_additional_jump (update_state g m).status
        ((update_state g m).status m.new_loc) t.player (finish_piece_move t m)).2).step =
          (finish_piece_move t m).step
      rw [gaj_snd_spec, gaj_fst_turn_irrel (update_state g m).status
        ((update_state g m).status m.new_loc) t.player (finish_piece_move t m) t,
        if_neg hlen]
  · rw [if_neg him, if_neg him]
    rw [huct]

/-- C8: once a Turn has committed a move through `finish_piece_move` (which,
by `is_valid_turn`, is a capture whenever a capture was required) and the
controller has applied it, the Turn's step is `MOVE_COMPLETE` iff either no
capture was required when the move was finished, or the continuation check
`get_additional_jump` from the landing cell finds no further capturing Move;
otherwise the step stays at `CHECK_MULTIPLE_JUMPS`, short of completion. -/
theorem c8_move_complete_iff (g : Game) (t : Turn) (m : Move)
    (hturn : g.current_turn = finish_piece_move t m)
    (hcap : t.capture_required = true → m.is_capture = true) :
    ((make_move g).current_turn.step = MOVE_COMPLETE ↔
      (t.capture_required = false ∨
        (get_additional_jump (update_state g m).status
            ((update_state g m).status m.new_loc) t.player t).1 = [])) := by
  rw [make_move_step_char g t m hturn]
  cases hc : t.capture_required with
  | false =>
      have hs : (finish_piece_move t m).step = MOVE_COMPLETE := by
        simp [finish_piece_move, hc]
      constructor
      · intro _
        exact Or.inl rfl
      · intro _
        by_cases him : m.is_capture = true
        · rw [if_pos him]
          by_cases hlen : (get_additional_jump (update_state g m).status
              ((update_state g m).status m.new_loc) t.player t).1.length = 0
          · rw [if_pos hlen]
          · rw [if_neg hlen, hs]
        · rw [if_neg him, hs]
  | true =>
      have him := hcap hc
      have hs : (finish_piece_move t m).step = CHECK_MULTIPLE_JUMPS := by
        simp [finish_piece_move, hc]
      rw [if_pos him, hs]
      by_cases hlen : (get_additional_jump (update_state g m).status
          ((update_state g m).status m.new_loc) t.player t).1.length = 0
      · rw [if_pos hlen]
        constructor
        · intro _
          exact Or.inr (List.length_eq_zero.mp hlen)
        · intro _
          rfl
      · rw [if_neg hlen]
        constructor
        · intro habs
          exact absurd habs (by decide)
        · intro hor
          rcases hor with h1 | h2
          · exact absurd h1 (by simp)
          · refine absurd ?_ hlen
            rw [h2]
            rfl

/-- The double-capture game just after its turn committed the capture of
`(3, 3)` through `finish_piece_move`. -/
def committed_capture_game : Game :=
  { double_capture_game with
    current_turn :=
      finish_piece_move double_capture_game.current_turn capture_move_33 }

/-- C8 witness: after the committed capture of `(3, 3)` is applied, no
further capture exists from the landing cell `(4, 4)`, so the turn's step is
`MOVE_COMPLETE`. -/
theorem c8_move_complete_iff_witness :
    (make_move committed_capture_game).current_turn.step = MOVE_COMPLETE :=
  (c8_move_complete_iff committed_capture_game double_capture_game.current_turn
      capture_move_33 rfl (by decide)).mpr (Or.inr (by decide))
